import Mathlib

/-!
# Flash geometry of the persistent storage platform header

Shallow embedding of `include/third/nrf/pstorage_platform.h`.

The header derives every address from three hardware registers, read through
`NRF_FICR` and `NRF_UICR`.  The registers are 32-bit unsigned; the
expressions are evaluated with C's unsigned 32-bit arithmetic, so subtraction
and multiplication wrap modulo `2 ^ 32`, and a division whose divisor is zero
has no value (`none`).
-/

namespace Pstorage

/-- Width of `uint32_t` arithmetic: results are reduced modulo this. -/
def UINT32_MOD : Nat := 2 ^ 32

/-- Width of `uint16_t` values: a cast to `uint16_t` reduces modulo this. -/
def UINT16_MOD : Nat := 2 ^ 16

/-- The hardware registers the header reads: `NRF_FICR->CODEPAGESIZE`,
`NRF_FICR->CODESIZE` and `NRF_UICR->BOOTLOADERADDR`. -/
structure Registers where
  CODEPAGESIZE : Nat
  CODESIZE : Nat
  BOOTLOADERADDR : Nat
  deriving DecidableEq

/-- The registers hold 32-bit unsigned values. -/
def Registers.valid (hw : Registers) : Prop :=
  hw.CODEPAGESIZE < UINT32_MOD ∧ hw.CODESIZE < UINT32_MOD ∧ hw.BOOTLOADERADDR < UINT32_MOD

instance (hw : Registers) : Decidable hw.valid := by
  unfold Registers.valid; infer_instance

/-- Unsigned 32-bit subtraction `a - b`. -/
def sub32 (a b : Nat) : Nat := (a + UINT32_MOD - b % UINT32_MOD) % UINT32_MOD

/-- Unsigned 32-bit multiplication `a * b`. -/
def mul32 (a b : Nat) : Nat := (a * b) % UINT32_MOD

/-- Unsigned 32-bit division `a / b`; no value when the divisor is zero. -/
def div32 (a b : Nat) : Option Nat := if b = 0 then none else some (a / b)

/-- `#define PSTORAGE_FLASH_PAGE_SIZE ((uint16_t)NRF_FICR->CODEPAGESIZE)` -/
def PSTORAGE_FLASH_PAGE_SIZE (hw : Registers) : Nat := hw.CODEPAGESIZE % UINT16_MOD

/-- `#define PSTORAGE_FLASH_EMPTY_MASK 0xFFFFFFFF` -/
def PSTORAGE_FLASH_EMPTY_MASK : Nat := 0xFFFFFFFF

/-- `#define PSTORAGE_FLASH_PAGE_END`: the conditional evaluates the division
only when a bootloader address is set. -/
def PSTORAGE_FLASH_PAGE_END (hw : Registers) : Option Nat :=
  if hw.BOOTLOADERADDR ≠ PSTORAGE_FLASH_EMPTY_MASK then
    div32 hw.BOOTLOADERADDR (PSTORAGE_FLASH_PAGE_SIZE hw)
  else
    some hw.CODESIZE

/-- `#define PSTORAGE_MAX_APPLICATIONS 2` -/
def PSTORAGE_MAX_APPLICATIONS : Nat := 2

/-- `#define PSTORAGE_DATA_START_ADDR
((PSTORAGE_FLASH_PAGE_END - PSTORAGE_MAX_APPLICATIONS - 1) * PSTORAGE_FLASH_PAGE_SIZE)` -/
def PSTORAGE_DATA_START_ADDR (hw : Registers) : Option Nat :=
  (PSTORAGE_FLASH_PAGE_END hw).map fun pageEnd =>
    mul32 (sub32 (sub32 pageEnd PSTORAGE_MAX_APPLICATIONS) 1) (PSTORAGE_FLASH_PAGE_SIZE hw)

/-- `#define PSTORAGE_DATA_END_ADDR ((PSTORAGE_FLASH_PAGE_END - 1) * PSTORAGE_FLASH_PAGE_SIZE)` -/
def PSTORAGE_DATA_END_ADDR (hw : Registers) : Option Nat :=
  (PSTORAGE_FLASH_PAGE_END hw).map fun pageEnd =>
    mul32 (sub32 pageEnd 1) (PSTORAGE_FLASH_PAGE_SIZE hw)

/-- `#define PSTORAGE_SWAP_ADDR PSTORAGE_DATA_END_ADDR` -/
def PSTORAGE_SWAP_ADDR (hw : Registers) : Option Nat := PSTORAGE_DATA_END_ADDR hw

/-- `#define PSTORAGE_MAX_BLOCK_SIZE PSTORAGE_FLASH_PAGE_SIZE` -/
def PSTORAGE_MAX_BLOCK_SIZE (hw : Registers) : Nat := PSTORAGE_FLASH_PAGE_SIZE hw

/-- `#define PSTORAGE_CMD_QUEUE_SIZE 10` -/
def PSTORAGE_CMD_QUEUE_SIZE : Nat := 10

/-- `typedef uint32_t pstorage_block_t;` and the handle built from it. -/
structure pstorage_handle_t where
  module_id : Nat
  block_id : Nat
  deriving DecidableEq

/-- `typedef uint16_t pstorage_size_t;`: storing a value in a length or offset
field keeps its low 16 bits. -/
def pstorage_size_t (n : Nat) : Nat := n % UINT16_MOD

/-- The three derived addresses, evaluated together. -/
structure Geometry where
  dataStart : Nat
  dataEnd : Nat
  swap : Nat
  deriving DecidableEq

/-- Evaluate `PSTORAGE_DATA_START_ADDR`, `PSTORAGE_DATA_END_ADDR` and
`PSTORAGE_SWAP_ADDR`; there is a result only when each of them has a value. -/
def geometry (hw : Registers) : Option Geometry :=
  match PSTORAGE_DATA_START_ADDR hw, PSTORAGE_DATA_END_ADDR hw, PSTORAGE_SWAP_ADDR hw with
  | some s, some e, some w => some ⟨s, e, w⟩
  | _, _, _ => none

/-- An nRF51 part: 1 KiB pages, 256 pages, bootloader at `0x3C000`. -/
def nrf51WithBootloader : Registers := ⟨1024, 256, 0x3C000⟩

/-- An nRF51 part without a bootloader address in `UICR`. -/
def nrf51NoBootloader : Registers := ⟨1024, 256, 0xFFFFFFFF⟩

/-- A bootloader address one page above the start of flash. -/
def lowBootloader : Registers := ⟨1024, 256, 0x400⟩

/-- A bootloader address one page above the start of a flash of `0x3FFFFF` pages. -/
def lowBootloaderLargeFlash : Registers := ⟨1024, 0x3FFFFF, 0x400⟩

/-- A page-size register whose low 16 bits are zero, with a bootloader set. -/
def wideCodePageSize : Registers := ⟨0x10000, 4, 0x30000⟩

theorem UINT32_MOD_eq : UINT32_MOD = 4294967296 := by decide

theorem UINT16_MOD_eq : UINT16_MOD = 65536 := by decide

theorem sub32_of_le {a b : Nat} (hb : b ≤ a) (ha : a < UINT32_MOD) : sub32 a b = a - b := by
  unfold sub32
  rw [UINT32_MOD_eq] at *
  omega

theorem mul32_of_lt {a b : Nat} (h : a * b < UINT32_MOD) : mul32 a b = a * b :=
  Nat.mod_eq_of_lt h

theorem page_size_lt (hw : Registers) : PSTORAGE_FLASH_PAGE_SIZE hw < 65536 := by
  unfold PSTORAGE_FLASH_PAGE_SIZE
  rw [UINT16_MOD_eq]
  exact Nat.mod_lt _ (by decide)

theorem page_size_of_lt {hw : Registers} (h : hw.CODEPAGESIZE < 65536) :
    PSTORAGE_FLASH_PAGE_SIZE hw = hw.CODEPAGESIZE := by
  unfold PSTORAGE_FLASH_PAGE_SIZE
  rw [UINT16_MOD_eq]
  exact Nat.mod_eq_of_lt h

/-- With a bootloader address set and a nonzero page size, the page end is the quotient. -/
theorem page_end_of_bootloader {hw : Registers}
    (hB : hw.BOOTLOADERADDR ≠ PSTORAGE_FLASH_EMPTY_MASK) (hp : PSTORAGE_FLASH_PAGE_SIZE hw ≠ 0) :
    PSTORAGE_FLASH_PAGE_END hw = some (hw.BOOTLOADERADDR / PSTORAGE_FLASH_PAGE_SIZE hw) := by
  simp [PSTORAGE_FLASH_PAGE_END, div32, hB, hp]

/-- Without a bootloader address the page end is the page count, whatever the page size. -/
theorem page_end_of_no_bootloader {hw : Registers}
    (hB : hw.BOOTLOADERADDR = PSTORAGE_FLASH_EMPTY_MASK) :
    PSTORAGE_FLASH_PAGE_END hw = some hw.CODESIZE := by
  simp [PSTORAGE_FLASH_PAGE_END, hB]

/-- The page end has no value exactly when the division is by zero. -/
theorem page_end_eq_none_iff (hw : Registers) :
    PSTORAGE_FLASH_PAGE_END hw = none ↔
      hw.BOOTLOADERADDR ≠ PSTORAGE_FLASH_EMPTY_MASK ∧ PSTORAGE_FLASH_PAGE_SIZE hw = 0 := by
  unfold PSTORAGE_FLASH_PAGE_END div32
  by_cases hB : hw.BOOTLOADERADDR = PSTORAGE_FLASH_EMPTY_MASK
  · simp [hB]
  · by_cases hp : PSTORAGE_FLASH_PAGE_SIZE hw = 0 <;> simp [hB, hp]

/-- A page end that avoids wrap-around: the two addresses are plain products. -/
theorem addrs_of_page_end {hw : Registers} {e : Nat}
    (hE : PSTORAGE_FLASH_PAGE_END hw = some e) (h3 : 3 ≤ e) (he : e < UINT32_MOD)
    (hmul : e * PSTORAGE_FLASH_PAGE_SIZE hw < UINT32_MOD) :
    PSTORAGE_DATA_START_ADDR hw = some ((e - 3) * PSTORAGE_FLASH_PAGE_SIZE hw) ∧
      PSTORAGE_DATA_END_ADDR hw = some ((e - 1) * PSTORAGE_FLASH_PAGE_SIZE hw) := by
  have h2 : sub32 e PSTORAGE_MAX_APPLICATIONS = e - 2 :=
    sub32_of_le (by unfold PSTORAGE_MAX_APPLICATIONS; omega) he
  have h1 : sub32 (e - 2) 1 = e - 3 := by
    rw [sub32_of_le (by omega) (by omega)]; omega
  have h1e : sub32 e 1 = e - 1 := sub32_of_le (by omega) he
  have hm3 : (e - 3) * PSTORAGE_FLASH_PAGE_SIZE hw < UINT32_MOD :=
    lt_of_le_of_lt (Nat.mul_le_mul_right _ (by omega)) hmul
  have hm1 : (e - 1) * PSTORAGE_FLASH_PAGE_SIZE hw < UINT32_MOD :=
    lt_of_le_of_lt (Nat.mul_le_mul_right _ (by omega)) hmul
  constructor
  · simp [PSTORAGE_DATA_START_ADDR, hE, h2, h1, mul32_of_lt hm3]
  · simp [PSTORAGE_DATA_END_ADDR, hE, h1e, mul32_of_lt hm1]

/-- The page end of 32-bit registers is itself a 32-bit value. -/
theorem page_end_lt {hw : Registers} (hv : hw.valid) {e : Nat}
    (hE : PSTORAGE_FLASH_PAGE_END hw = some e) : e < UINT32_MOD := by
  obtain ⟨-, hC, hB⟩ := hv
  unfold PSTORAGE_FLASH_PAGE_END div32 at hE
  split at hE
  · split at hE
    · exact absurd hE (by simp)
    · have h := Option.some.inj hE
      rw [← h]
      exact lt_of_le_of_lt (Nat.div_le_self _ _) hB
  · have h := Option.some.inj hE
    rw [← h]
    exact hC

/-- With a bootloader address set, the pages below the page end fit below it. -/
theorem page_end_mul_le {hw : Registers} {e : Nat}
    (hB : hw.BOOTLOADERADDR ≠ PSTORAGE_FLASH_EMPTY_MASK)
    (hE : PSTORAGE_FLASH_PAGE_END hw = some e) :
    e * PSTORAGE_FLASH_PAGE_SIZE hw ≤ hw.BOOTLOADERADDR := by
  unfold PSTORAGE_FLASH_PAGE_END div32 at hE
  rw [if_pos hB] at hE
  split at hE
  · exact absurd hE (by simp)
  · have h := Option.some.inj hE
    rw [← h]
    exact Nat.div_mul_le_self _ _

/-- Once the page end has a value, so has each address expression. -/
theorem addrs_defined {hw : Registers} {e : Nat} (hE : PSTORAGE_FLASH_PAGE_END hw = some e) :
    PSTORAGE_DATA_START_ADDR hw
        = some (mul32 (sub32 (sub32 e PSTORAGE_MAX_APPLICATIONS) 1)
            (PSTORAGE_FLASH_PAGE_SIZE hw)) ∧
      PSTORAGE_DATA_END_ADDR hw = some (mul32 (sub32 e 1) (PSTORAGE_FLASH_PAGE_SIZE hw)) ∧
      PSTORAGE_SWAP_ADDR hw = some (mul32 (sub32 e 1) (PSTORAGE_FLASH_PAGE_SIZE hw)) ∧
      geometry hw
        = some ⟨mul32 (sub32 (sub32 e PSTORAGE_MAX_APPLICATIONS) 1) (PSTORAGE_FLASH_PAGE_SIZE hw),
            mul32 (sub32 e 1) (PSTORAGE_FLASH_PAGE_SIZE hw),
            mul32 (sub32 e 1) (PSTORAGE_FLASH_PAGE_SIZE hw)⟩ := by
  simp [geometry, PSTORAGE_SWAP_ADDR, PSTORAGE_DATA_START_ADDR, PSTORAGE_DATA_END_ADDR, hE]

/-- The page end has a value when the page size is nonzero or no bootloader is set. -/
theorem page_end_defined {hw : Registers}
    (h : PSTORAGE_FLASH_PAGE_SIZE hw ≠ 0 ∨ hw.BOOTLOADERADDR = PSTORAGE_FLASH_EMPTY_MASK) :
    ∃ e, PSTORAGE_FLASH_PAGE_END hw = some e := by
  rcases h with hp | hB
  · by_cases hB : hw.BOOTLOADERADDR = PSTORAGE_FLASH_EMPTY_MASK
    · exact ⟨_, page_end_of_no_bootloader hB⟩
    · exact ⟨_, page_end_of_bootloader hB hp⟩
  · exact ⟨_, page_end_of_no_bootloader hB⟩

/-- Wrapped or not, the two address expressions are two pages apart modulo `2^32`. -/
theorem sub32_addrs (e p : Nat) (hp : p < 65536) :
    sub32 (mul32 (sub32 e 1) p) (mul32 (sub32 (sub32 e 2) 1) p) = 2 * p := by
  unfold sub32 mul32
  rw [UINT32_MOD_eq, show (1 : Nat) % 4294967296 = 1 from rfl,
    show (2 : Nat) % 4294967296 = 2 from rfl]
  generalize hy : (e + 4294967296 - 1) % 4294967296 = y
  generalize hx : ((e + 4294967296 - 2) % 4294967296 + 4294967296 - 1) % 4294967296 = x
  have hxy : y = x + 2 ∨ x = y + 4294967294 := by omega
  rcases hxy with h | h
  · have hm : y * p = x * p + 2 * p := by rw [h]; ring
    rw [hm]
    generalize x * p = q
    omega
  · have hm : x * p = y * p + 4294967294 * p := by rw [h]; ring
    rw [hm]
    generalize y * p = q
    omega

/-! ## Claims -/

/-- C1: for 32-bit registers with page size `0 < p < 2^16`, a page end of at
least `PSTORAGE_MAX_APPLICATIONS + 1` and `page end * p < 2^32`, the data start
address lies strictly below the data end address, and when a bootloader address
is set the data end address does not exceed it. -/
theorem data_start_lt_data_end_le_bootloader (hw : Registers) (hv : hw.valid)
    (hp0 : 0 < hw.CODEPAGESIZE) (hp16 : hw.CODEPAGESIZE < 2 ^ 16) (e : Nat)
    (hE : PSTORAGE_FLASH_PAGE_END hw = some e) (h3 : PSTORAGE_MAX_APPLICATIONS + 1 ≤ e)
    (hmul : e * hw.CODEPAGESIZE < 2 ^ 32) :
    ∃ s d, PSTORAGE_DATA_START_ADDR hw = some s ∧ PSTORAGE_DATA_END_ADDR hw = some d ∧
      s < d ∧ (hw.BOOTLOADERADDR ≠ PSTORAGE_FLASH_EMPTY_MASK → d ≤ hw.BOOTLOADERADDR) := by
  have hps : PSTORAGE_FLASH_PAGE_SIZE hw = hw.CODEPAGESIZE := page_size_of_lt (by omega)
  have h3e : 3 ≤ e := by unfold PSTORAGE_MAX_APPLICATIONS at h3; omega
  have hmul2 : e * PSTORAGE_FLASH_PAGE_SIZE hw < UINT32_MOD := by
    rw [hps, UINT32_MOD_eq]; omega
  obtain ⟨hs, hd⟩ := addrs_of_page_end hE h3e (page_end_lt hv hE) hmul2
  refine ⟨_, _, hs, hd, ?_, ?_⟩
  · rw [hps]
    exact Nat.mul_lt_mul_of_pos_right (by omega) hp0
  · intro hB
    exact le_trans (Nat.mul_le_mul_right _ (by omega)) (page_end_mul_le hB hE)

theorem data_start_lt_data_end_le_bootloader_witness :
    ∃ s d, PSTORAGE_DATA_START_ADDR nrf51WithBootloader = some s ∧
      PSTORAGE_DATA_END_ADDR nrf51WithBootloader = some d ∧ s < d ∧
      (nrf51WithBootloader.BOOTLOADERADDR ≠ PSTORAGE_FLASH_EMPTY_MASK →
        d ≤ nrf51WithBootloader.BOOTLOADERADDR) :=
  data_start_lt_data_end_le_bootloader nrf51WithBootloader (by decide) (by decide) (by decide)
    240 (by decide) (by decide) (by decide)

/-- C2: with a nonzero page size, a page end of at least 3 and
`page end * page size < 2^32`, the data start address, the data end address and
the swap address are all exact multiples of the page size. -/
theorem addresses_page_aligned (hw : Registers) (hv : hw.valid)
    (_hp : PSTORAGE_FLASH_PAGE_SIZE hw ≠ 0) (e : Nat)
    (hE : PSTORAGE_FLASH_PAGE_END hw = some e)
    (hmul : e * PSTORAGE_FLASH_PAGE_SIZE hw < 2 ^ 32) (h3 : 3 ≤ e) :
    ∃ s d w, PSTORAGE_DATA_START_ADDR hw = some s ∧ PSTORAGE_DATA_END_ADDR hw = some d ∧
      PSTORAGE_SWAP_ADDR hw = some w ∧
      PSTORAGE_FLASH_PAGE_SIZE hw ∣ s ∧ PSTORAGE_FLASH_PAGE_SIZE hw ∣ d ∧
      PSTORAGE_FLASH_PAGE_SIZE hw ∣ w := by
  have hmul2 : e * PSTORAGE_FLASH_PAGE_SIZE hw < UINT32_MOD := by
    rw [UINT32_MOD_eq]; omega
  obtain ⟨hs, hd⟩ := addrs_of_page_end hE h3 (page_end_lt hv hE) hmul2
  exact ⟨_, _, _, hs, hd, hd, Nat.dvd_mul_left _ _, Nat.dvd_mul_left _ _, Nat.dvd_mul_left _ _⟩

theorem addresses_page_aligned_witness :
    ∃ s d w, PSTORAGE_DATA_START_ADDR nrf51NoBootloader = some s ∧
      PSTORAGE_DATA_END_ADDR nrf51NoBootloader = some d ∧
      PSTORAGE_SWAP_ADDR nrf51NoBootloader = some w ∧
      PSTORAGE_FLASH_PAGE_SIZE nrf51NoBootloader ∣ s ∧
      PSTORAGE_FLASH_PAGE_SIZE nrf51NoBootloader ∣ d ∧
      PSTORAGE_FLASH_PAGE_SIZE nrf51NoBootloader ∣ w :=
  addresses_page_aligned nrf51NoBootloader (by decide) (by decide) 256 (by decide)
    (by decide) (by decide)

/-- C3: the swap address equals the data end address, so every block
`[offset, offset + size)` that lies inside the storage region
`[PSTORAGE_DATA_START_ADDR, PSTORAGE_DATA_END_ADDR)` is disjoint from the swap
page `[PSTORAGE_SWAP_ADDR, PSTORAGE_SWAP_ADDR + PSTORAGE_FLASH_PAGE_SIZE)`. -/
theorem swap_page_disjoint_from_blocks (hw : Registers) (s d w : Nat)
    (_hs : PSTORAGE_DATA_START_ADDR hw = some s) (hd : PSTORAGE_DATA_END_ADDR hw = some d)
    (hsw : PSTORAGE_SWAP_ADDR hw = some w) (offset size : Nat)
    (_hlo : s ≤ offset) (hhi : offset + size ≤ d) :
    PSTORAGE_SWAP_ADDR hw = PSTORAGE_DATA_END_ADDR hw ∧ w = d ∧
      Disjoint (Set.Ico offset (offset + size))
        (Set.Ico w (w + PSTORAGE_FLASH_PAGE_SIZE hw)) := by
  have hwd : w = d := by
    unfold PSTORAGE_SWAP_ADDR at hsw
    rw [hd] at hsw
    exact (Option.some.inj hsw).symm
  refine ⟨rfl, hwd, ?_⟩
  rw [Set.disjoint_left]
  intro a ha hb
  simp only [Set.mem_Ico] at ha hb
  omega

theorem swap_page_disjoint_from_blocks_witness :
    PSTORAGE_SWAP_ADDR nrf51WithBootloader = PSTORAGE_DATA_END_ADDR nrf51WithBootloader ∧
      244736 = 244736 ∧
      Disjoint (Set.Ico 243712 (243712 + 1024))
        (Set.Ico 244736 (244736 + PSTORAGE_FLASH_PAGE_SIZE nrf51WithBootloader)) :=
  swap_page_disjoint_from_blocks nrf51WithBootloader 242688 244736 244736
    (by decide) (by decide) (by decide) 243712 1024 (by decide) (by decide)

/-- C4, as stated, fails for the storage pages: with 1 KiB pages and the
bootloader at `0x400` the hypotheses hold (`BOOTLOADERADDR / p = 1`), yet the
data start address wraps to `0xFFFFF800`, which is not below the bootloader
address and lies inside the flash above it. -/
theorem storage_page_above_bootloader_counterexample :
    lowBootloaderLargeFlash.valid ∧
      lowBootloaderLargeFlash.BOOTLOADERADDR ≠ PSTORAGE_FLASH_EMPTY_MASK ∧
      PSTORAGE_FLASH_PAGE_SIZE lowBootloaderLargeFlash = 1024 ∧
      1 ≤ lowBootloaderLargeFlash.BOOTLOADERADDR / PSTORAGE_FLASH_PAGE_SIZE lowBootloaderLargeFlash ∧
      PSTORAGE_DATA_START_ADDR lowBootloaderLargeFlash = some 4294965248 ∧
      PSTORAGE_DATA_END_ADDR lowBootloaderLargeFlash = some 0 ∧
      lowBootloaderLargeFlash.BOOTLOADERADDR ≤ 4294965248 ∧
      4294965248 + PSTORAGE_FLASH_PAGE_SIZE lowBootloaderLargeFlash
        ≤ lowBootloaderLargeFlash.CODESIZE * PSTORAGE_FLASH_PAGE_SIZE lowBootloaderLargeFlash := by
  decide

/-- C4, amended: with a bootloader address set, a nonzero page size `p` and
`BOOTLOADERADDR / p ≥ 1`, the swap page is the top-most whole page below the
bootloader: it ends at or below the bootloader address, less than one page
below it, and none of its addresses reaches the bootloader address.  When
moreover `BOOTLOADERADDR / p ≥ PSTORAGE_MAX_APPLICATIONS + 1`, the storage
region is the `PSTORAGE_MAX_APPLICATIONS` pages right below the swap page, and
each storage page ends at or below the bootloader address. -/
theorem swap_and_storage_pages_below_bootloader (hw : Registers) (hv : hw.valid)
    (hB : hw.BOOTLOADERADDR ≠ PSTORAGE_FLASH_EMPTY_MASK)
    (hp : PSTORAGE_FLASH_PAGE_SIZE hw ≠ 0)
    (h1 : 1 ≤ hw.BOOTLOADERADDR / PSTORAGE_FLASH_PAGE_SIZE hw) :
    ∃ w, PSTORAGE_SWAP_ADDR hw = some w ∧
      w + PSTORAGE_FLASH_PAGE_SIZE hw ≤ hw.BOOTLOADERADDR ∧
      hw.BOOTLOADERADDR - (w + PSTORAGE_FLASH_PAGE_SIZE hw) < PSTORAGE_FLASH_PAGE_SIZE hw ∧
      (∀ a, w ≤ a → a < w + PSTORAGE_FLASH_PAGE_SIZE hw → a < hw.BOOTLOADERADDR) ∧
      (PSTORAGE_MAX_APPLICATIONS + 1 ≤ hw.BOOTLOADERADDR / PSTORAGE_FLASH_PAGE_SIZE hw →
        ∃ s d, PSTORAGE_DATA_START_ADDR hw = some s ∧ PSTORAGE_DATA_END_ADDR hw = some d ∧
          d = w ∧ s + PSTORAGE_MAX_APPLICATIONS * PSTORAGE_FLASH_PAGE_SIZE hw = d ∧
          (∀ k, k < PSTORAGE_MAX_APPLICATIONS →
            s + (k + 1) * PSTORAGE_FLASH_PAGE_SIZE hw ≤ hw.BOOTLOADERADDR) ∧
          ∀ a, s ≤ a → a < d → a < hw.BOOTLOADERADDR) := by
  have hE := page_end_of_bootloader hB hp
  have hlt := page_end_lt hv hE
  have hle := page_end_mul_le hB hE
  have hBv : hw.BOOTLOADERADDR < UINT32_MOD := hv.2.2
  have hmod : hw.BOOTLOADERADDR
      - hw.BOOTLOADERADDR / PSTORAGE_FLASH_PAGE_SIZE hw * PSTORAGE_FLASH_PAGE_SIZE hw
      < PSTORAGE_FLASH_PAGE_SIZE hw := by
    have hdm := Nat.div_add_mod hw.BOOTLOADERADDR (PSTORAGE_FLASH_PAGE_SIZE hw)
    have hml := Nat.mod_lt hw.BOOTLOADERADDR (Nat.pos_of_ne_zero hp)
    rw [Nat.mul_comm] at hdm
    omega
  generalize hw.BOOTLOADERADDR / PSTORAGE_FLASH_PAGE_SIZE hw = e at hE hlt hle h1 hmod
  generalize hps : PSTORAGE_FLASH_PAGE_SIZE hw = p at hle hmod
  have hsplit : (e - 1) * p + p = e * p := by
    obtain ⟨k, rfl⟩ : ∃ k, e = k + 1 := ⟨e - 1, by omega⟩
    rw [Nat.add_sub_cancel, Nat.succ_mul]
  have hsw : PSTORAGE_SWAP_ADDR hw = some ((e - 1) * p) := by
    have hm1 : (e - 1) * p < UINT32_MOD := by omega
    simp [PSTORAGE_SWAP_ADDR, PSTORAGE_DATA_END_ADDR, hE, hps, sub32_of_le h1 hlt,
      mul32_of_lt hm1]
  refine ⟨_, hsw, by omega, by omega, fun a _ ha => by omega, fun h3 => ?_⟩
  have h3e : 3 ≤ e := by unfold PSTORAGE_MAX_APPLICATIONS at h3; omega
  have hmul : e * PSTORAGE_FLASH_PAGE_SIZE hw < UINT32_MOD := by rw [hps]; omega
  obtain ⟨hs, hd⟩ := addrs_of_page_end hE h3e hlt hmul
  rw [hps] at hs hd
  have hsplit3 : (e - 3) * p + 2 * p = (e - 1) * p := by
    obtain ⟨k, rfl⟩ : ∃ k, e = k + 3 := ⟨e - 3, by omega⟩
    have h1k : k + 3 - 1 = k + 2 := by omega
    rw [Nat.add_sub_cancel, h1k, Nat.add_mul]
  refine ⟨_, _, hs, hd, rfl, ?_, ?_, fun a _ ha => by omega⟩
  · unfold PSTORAGE_MAX_APPLICATIONS
    exact hsplit3
  · intro k hk
    unfold PSTORAGE_MAX_APPLICATIONS at hk
    have hk2 : k = 0 ∨ k = 1 := by omega
    rcases hk2 with rfl | rfl <;> omega

theorem swap_and_storage_pages_below_bootloader_witness :
    ∃ w, PSTORAGE_SWAP_ADDR nrf51WithBootloader = some w ∧
      w + PSTORAGE_FLASH_PAGE_SIZE nrf51WithBootloader ≤ nrf51WithBootloader.BOOTLOADERADDR ∧
      ∃ s d, PSTORAGE_DATA_START_ADDR nrf51WithBootloader = some s ∧
        PSTORAGE_DATA_END_ADDR nrf51WithBootloader = some d ∧ d = w ∧
        s + PSTORAGE_MAX_APPLICATIONS * PSTORAGE_FLASH_PAGE_SIZE nrf51WithBootloader = d ∧
        ∀ k, k < PSTORAGE_MAX_APPLICATIONS →
          s + (k + 1) * PSTORAGE_FLASH_PAGE_SIZE nrf51WithBootloader
            ≤ nrf51WithBootloader.BOOTLOADERADDR := by
  obtain ⟨w, hw1, hw2, -, -, hst⟩ :=
    swap_and_storage_pages_below_bootloader nrf51WithBootloader (by decide) (by decide)
      (by decide) (by decide)
  obtain ⟨s, d, hs, hd, hdw, hsd, hk, -⟩ := hst (by decide)
  exact ⟨w, hw1, hw2, s, d, hs, hd, hdw, hsd, hk⟩

/-- C5: with no bootloader address set, the page end is `CODESIZE`, and for
`CODESIZE ≥ 1` with `CODESIZE * page size < 2^32` the swap page is the last page
of flash: the swap address plus the page size is `CODESIZE * page size`. -/
theorem swap_page_is_last_page_without_bootloader (hw : Registers) (hv : hw.valid)
    (hB : hw.BOOTLOADERADDR = PSTORAGE_FLASH_EMPTY_MASK) :
    PSTORAGE_FLASH_PAGE_END hw = some hw.CODESIZE ∧
      (1 ≤ hw.CODESIZE → hw.CODESIZE * PSTORAGE_FLASH_PAGE_SIZE hw < 2 ^ 32 →
        ∃ w, PSTORAGE_SWAP_ADDR hw = some w ∧
          w + PSTORAGE_FLASH_PAGE_SIZE hw = hw.CODESIZE * PSTORAGE_FLASH_PAGE_SIZE hw) := by
  have hE := page_end_of_no_bootloader hB
  refine ⟨hE, fun h1 hmul => ?_⟩
  have hC : hw.CODESIZE < UINT32_MOD := hv.2.1
  have hsplit : (hw.CODESIZE - 1) * PSTORAGE_FLASH_PAGE_SIZE hw + PSTORAGE_FLASH_PAGE_SIZE hw
      = hw.CODESIZE * PSTORAGE_FLASH_PAGE_SIZE hw := by
    obtain ⟨k, hk⟩ : ∃ k, hw.CODESIZE = k + 1 := ⟨hw.CODESIZE - 1, by omega⟩
    rw [hk, Nat.add_sub_cancel, Nat.succ_mul]
  have hm1 : (hw.CODESIZE - 1) * PSTORAGE_FLASH_PAGE_SIZE hw < UINT32_MOD := by
    rw [UINT32_MOD_eq]; omega
  refine ⟨(hw.CODESIZE - 1) * PSTORAGE_FLASH_PAGE_SIZE hw, ?_, hsplit⟩
  simp [PSTORAGE_SWAP_ADDR, PSTORAGE_DATA_END_ADDR, hE, sub32_of_le h1 hC, mul32_of_lt hm1]

theorem swap_page_is_last_page_without_bootloader_witness :
    PSTORAGE_FLASH_PAGE_END nrf51NoBootloader = some 256 ∧
      ∃ w, PSTORAGE_SWAP_ADDR nrf51NoBootloader = some w ∧
        w + PSTORAGE_FLASH_PAGE_SIZE nrf51NoBootloader
          = nrf51NoBootloader.CODESIZE * PSTORAGE_FLASH_PAGE_SIZE nrf51NoBootloader :=
  ⟨(swap_page_is_last_page_without_bootloader nrf51NoBootloader (by decide) (by decide)).1,
    (swap_page_is_last_page_without_bootloader nrf51NoBootloader (by decide) (by decide)).2
      (by decide) (by decide)⟩

/-- C7, as stated, fails: with the bootloader one page above the start of
flash the page end is 1, below 3, and the three addresses still evaluate, the
data start address wrapped to the top of the address space. -/
theorem low_page_end_yields_values_counterexample :
    lowBootloader.valid ∧ PSTORAGE_FLASH_PAGE_END lowBootloader = some 1 ∧
      1 < PSTORAGE_MAX_APPLICATIONS + 1 ∧
      geometry lowBootloader = some ⟨4294965248, 0, 0⟩ := by
  decide

/-- C7, amended: the header has no assertion.  Whenever the page end has a
value below 3, the three addresses still evaluate, with the subtraction wrapped
modulo `2^32`: the data start address is `2^32 - (3 - page end) * page size`
reduced modulo `2^32`, and the data end and swap addresses are
`(page end - 1) * page size`, or `2^32 - page size` reduced modulo `2^32` when
the page end is 0. -/
theorem low_page_end_wraps (hw : Registers) (e : Nat)
    (hE : PSTORAGE_FLASH_PAGE_END hw = some e) (h3 : e < PSTORAGE_MAX_APPLICATIONS + 1) :
    geometry hw = some
      ⟨(2 ^ 32 - (3 - e) * PSTORAGE_FLASH_PAGE_SIZE hw) % 2 ^ 32,
       if e = 0 then (2 ^ 32 - PSTORAGE_FLASH_PAGE_SIZE hw) % 2 ^ 32
         else (e - 1) * PSTORAGE_FLASH_PAGE_SIZE hw,
       if e = 0 then (2 ^ 32 - PSTORAGE_FLASH_PAGE_SIZE hw) % 2 ^ 32
         else (e - 1) * PSTORAGE_FLASH_PAGE_SIZE hw⟩ := by
  have hps := page_size_lt hw
  unfold PSTORAGE_MAX_APPLICATIONS at h3
  simp only [geometry, PSTORAGE_SWAP_ADDR, PSTORAGE_DATA_START_ADDR, PSTORAGE_DATA_END_ADDR,
    hE, Option.map_some', PSTORAGE_MAX_APPLICATIONS, sub32, mul32, UINT32_MOD_eq]
  generalize PSTORAGE_FLASH_PAGE_SIZE hw = p at hps
  have he : e = 0 ∨ e = 1 ∨ e = 2 := by omega
  rcases he with rfl | rfl | rfl
  · norm_num
    constructor <;> omega
  · norm_num
    omega
  · norm_num
    omega

theorem low_page_end_wraps_witness :
    geometry lowBootloader = some
      ⟨(2 ^ 32 - (3 - 1) * PSTORAGE_FLASH_PAGE_SIZE lowBootloader) % 2 ^ 32,
       if 1 = 0 then (2 ^ 32 - PSTORAGE_FLASH_PAGE_SIZE lowBootloader) % 2 ^ 32
         else (1 - 1) * PSTORAGE_FLASH_PAGE_SIZE lowBootloader,
       if 1 = 0 then (2 ^ 32 - PSTORAGE_FLASH_PAGE_SIZE lowBootloader) % 2 ^ 32
         else (1 - 1) * PSTORAGE_FLASH_PAGE_SIZE lowBootloader⟩ :=
  low_page_end_wraps lowBootloader 1 (by decide) (by decide)

/-- C8, as stated, fails: a page-size register whose low 16 bits are zero,
with a bootloader address set, makes `PSTORAGE_FLASH_PAGE_END` divide by zero,
and none of the addresses has a value. -/
theorem page_end_divides_by_zero_counterexample :
    wideCodePageSize.valid ∧
      wideCodePageSize.BOOTLOADERADDR ≠ PSTORAGE_FLASH_EMPTY_MASK ∧
      PSTORAGE_FLASH_PAGE_SIZE wideCodePageSize = 0 ∧
      div32 wideCodePageSize.BOOTLOADERADDR (PSTORAGE_FLASH_PAGE_SIZE wideCodePageSize) = none ∧
      PSTORAGE_FLASH_PAGE_END wideCodePageSize = none ∧
      geometry wideCodePageSize = none := by
  decide

/-- C8, amended: the page end and the three addresses all have a value exactly
when the page size (the low 16 bits of `CODEPAGESIZE`) is nonzero or no
bootloader address is set; only then is the division free of a zero divisor. -/
theorem geometry_defined_iff (hw : Registers) :
    (PSTORAGE_FLASH_PAGE_SIZE hw ≠ 0 ∨ hw.BOOTLOADERADDR = PSTORAGE_FLASH_EMPTY_MASK) ↔
      ∃ e s d w, PSTORAGE_FLASH_PAGE_END hw = some e ∧ PSTORAGE_DATA_START_ADDR hw = some s ∧
        PSTORAGE_DATA_END_ADDR hw = some d ∧ PSTORAGE_SWAP_ADDR hw = some w ∧
        geometry hw = some ⟨s, d, w⟩ := by
  constructor
  · intro h
    obtain ⟨e, hE⟩ := page_end_defined h
    obtain ⟨hs, hd, hsw, hg⟩ := addrs_defined hE
    exact ⟨e, _, _, _, hE, hs, hd, hsw, hg⟩
  · rintro ⟨e, -, -, -, hE, -⟩
    by_contra hcon
    have hnone := (page_end_eq_none_iff hw).2 (by
      constructor
      · exact fun hB => hcon (Or.inr hB)
      · by_contra hp
        exact hcon (Or.inl hp))
    rw [hnone] at hE
    exact absurd hE (by simp)

/-- C9: whether or not a bootloader address is set, and whether or not the
expressions wrap, the data end address minus the data start address, taken as
32-bit unsigned, is `PSTORAGE_MAX_APPLICATIONS` pages, that is two pages; the
two addresses have a value whenever the page size is nonzero or no bootloader
address is set. -/
theorem data_region_is_max_applications_pages (hw : Registers) :
    (∀ s d, PSTORAGE_DATA_START_ADDR hw = some s → PSTORAGE_DATA_END_ADDR hw = some d →
        sub32 d s = PSTORAGE_MAX_APPLICATIONS * PSTORAGE_FLASH_PAGE_SIZE hw ∧
        sub32 d s = 2 * PSTORAGE_FLASH_PAGE_SIZE hw) ∧
      (PSTORAGE_FLASH_PAGE_SIZE hw ≠ 0 ∨ hw.BOOTLOADERADDR = PSTORAGE_FLASH_EMPTY_MASK →
        ∃ s d, PSTORAGE_DATA_START_ADDR hw = some s ∧ PSTORAGE_DATA_END_ADDR hw = some d) := by
  constructor
  · intro s d hs hd
    unfold PSTORAGE_DATA_START_ADDR at hs
    unfold PSTORAGE_DATA_END_ADDR at hd
    cases hE : PSTORAGE_FLASH_PAGE_END hw with
    | none => rw [hE] at hs; exact absurd hs (by simp)
    | some e =>
      rw [hE] at hs hd
      have hs2 := Option.some.inj hs
      have hd2 := Option.some.inj hd
      rw [← hs2, ← hd2]
      have key := sub32_addrs e (PSTORAGE_FLASH_PAGE_SIZE hw) (page_size_lt hw)
      exact ⟨key, key⟩
  · intro h
    obtain ⟨e, hE⟩ := page_end_defined h
    obtain ⟨hs, hd, -, -⟩ := addrs_defined hE
    exact ⟨_, _, hs, hd⟩

theorem data_region_is_max_applications_pages_witness :
    sub32 0 4294965248 = PSTORAGE_MAX_APPLICATIONS * PSTORAGE_FLASH_PAGE_SIZE lowBootloader ∧
      sub32 0 4294965248 = 2 * PSTORAGE_FLASH_PAGE_SIZE lowBootloader :=
  (data_region_is_max_applications_pages lowBootloader).1 4294965248 0 (by decide) (by decide)

/-- C10: the page size is `CODEPAGESIZE` reduced modulo `2^16`; it equals
`CODEPAGESIZE` whenever that is below 65536; and every block size up to
`PSTORAGE_MAX_BLOCK_SIZE` is unchanged by a cast to the 16-bit
`pstorage_size_t`. -/
theorem page_size_truncation (hw : Registers) :
    PSTORAGE_FLASH_PAGE_SIZE hw = hw.CODEPAGESIZE % 2 ^ 16 ∧
      (hw.CODEPAGESIZE < 65536 → PSTORAGE_FLASH_PAGE_SIZE hw = hw.CODEPAGESIZE) ∧
      ∀ size, size ≤ PSTORAGE_MAX_BLOCK_SIZE hw → pstorage_size_t size = size := by
  refine ⟨rfl, fun h => page_size_of_lt h, fun size hsize => ?_⟩
  have hps := page_size_lt hw
  unfold PSTORAGE_MAX_BLOCK_SIZE at hsize
  unfold pstorage_size_t
  rw [UINT16_MOD_eq]
  exact Nat.mod_eq_of_lt (by omega)

theorem page_size_truncation_witness :
    PSTORAGE_FLASH_PAGE_SIZE nrf51WithBootloader = 1024 ∧ pstorage_size_t 1024 = 1024 :=
  ⟨((page_size_truncation nrf51WithBootloader).2.1 (by decide)),
    (page_size_truncation nrf51WithBootloader).2.2 1024 (by decide)⟩

end Pstorage
